import Mathlib

/-!
Verification of the merkle-distributor claim accounting, shallowly embedded
from the Rust sources:
  programs/merkle-distributor/src/instructions/new_claim.rs
  programs/merkle-distributor/src/instructions/claim_locked.rs
  cli/src/bin/cli.rs (check_distributor_onchain_matches)
Byte strings are `List Nat`, u64 values are `Nat` with explicit `checkedAdd`
modelling the Rust `u64::checked_add`, timestamps are `Int` (Rust `i64`), and
the 32-byte hash function is an abstract parameter `H : Bytes → Bytes`
standing for `solana_program::hash::hashv` applied to the concatenation of
its slices.  A handler returns `Except ErrorCode _`; an error means the
enclosing ledger transaction aborts, so nothing is committed (the program
runs inside a single atomic transaction).
-/

namespace Distributor

abbrev Bytes := List Nat

/-- 2 ^ 64, the first value outside the u64 range. -/
def U64_LIMIT : Nat := 2 ^ 64

/-- Rust `u64::checked_add` on `Nat` carriers of u64 values. -/
def checkedAdd (a b : Nat) : Option Nat :=
  if a + b < U64_LIMIT then some (a + b) else none

/-- Rust `u64::to_le_bytes`: the eight little-endian bytes of `n`. -/
def toLeBytes64 (n : Nat) : Bytes :=
  (List.range 8).map (fun i => n / 256 ^ i % 256)

/-- The `MerkleDistributor` account state
(state/merkle_distributor.rs; the fields read and written by the two
embedded handlers and by the CLI check). -/
structure MerkleDistributor where
  root : Bytes
  mint : Bytes
  admin : Bytes
  clawbackReceiver : Bytes
  startTs : Int
  endTs : Int
  clawbackStartTs : Int
  totalAmountClaimed : Nat
  maxTotalClaim : Nat
  numNodesClaimed : Nat
  maxNumNodes : Nat
  clawedBack : Bool
deriving Repr, DecidableEq

/-- The compressed `ClaimStatus` account (state/claim_status.rs), one per
claimant per distributor. -/
structure ClaimStatus where
  claimant : Bytes
  lockedAmount : Nat
  unlockedAmount : Nat
  lockedAmountWithdrawn : Nat
deriving Repr, DecidableEq

/-- Error codes raised by the embedded handlers (error.rs), plus two
variants for failures of external programs invoked by CPI: `SplTokenError`
for a failing SPL-token transfer and `LightSystemError` for a failing Light
system program invocation (compressed-account creation or update). -/
inductive ErrorCode where
  | ClaimExpired
  | ArithmeticError
  | MaxNodesExceeded
  | InvalidProof
  | InvalidAddressTree
  | InsufficientUnlockedTokens
  | ExceededMaxClaim
  | OwnerMismatch
  | SplTokenError
  | LightSystemError
deriving Repr, DecidableEq

/-- The leaf domain-separation byte string: `LEAF_PREFIX` in new_claim.rs
is the single byte 0x00, prepended to discern leaf from intermediate nodes. -/
def leafDomainSep : Bytes := [0]

/-- The leaf hash computed by `handle_new_claim` (new_claim.rs lines
102-109): the inner hash of claimant bytes and the two little-endian
amounts, rehashed under the leaf domain-separation byte. -/
def newClaimLeaf (H : Bytes → Bytes) (claimant : Bytes)
    (amountUnlocked amountLocked : Nat) : Bytes :=
  let node := H (claimant ++ toLeBytes64 amountUnlocked ++ toLeBytes64 amountLocked)
  H (leafDomainSep ++ node)

/-- Lexicographic byte-string comparison used to order sibling hashes. -/
def bytesLe : Bytes → Bytes → Bool
  | [], _ => true
  | _ :: _, [] => false
  | x :: xs, y :: ys => if x < y then true else if y < x then false else bytesLe xs ys

/-- Modelled from the spec: the sibling-combination rule of the proof
verifier (the jito merkle-verify crate is not among the sources).  Spec
section 4.1: each pair of sibling hashes is combined by hashing their
concatenation in a fixed canonical order (sort the two values and
concatenate low before high). -/
def combineHashes (H : Bytes → Bytes) (a b : Bytes) : Bytes :=
  if bytesLe a b then H (a ++ b) else H (b ++ a)

/-- Modelled from the spec: `jito_merkle_verify::verify` is not among the
sources.  Spec section 4.1: fold each proof entry over the leaf using the
canonical sibling-combination rule and compare the final hash to the
stored root. -/
def verify (H : Bytes → Bytes) (proof : List Bytes) (root : Bytes) (leaf : Bytes) : Bool :=
  List.foldl (fun node sibling => combineHashes H node sibling) leaf proof == root

/-- The successful result of `handle_new_claim`: the updated distributor,
vault ("from") and destination ("to") token balances, the created
`ClaimStatus`, and the emitted `NewClaimEvent` fields. -/
structure NewClaimOk where
  distributor : MerkleDistributor
  vaultAmount : Nat
  toAmount : Nat
  claimStatus : ClaimStatus
  eventClaimant : Bytes
  eventTimestamp : Int
deriving Repr, DecidableEq

/-- `handle_new_claim` (new_claim.rs lines 75-216).  `currTs` is the clock
reading at entry; `addressTreeIsV2` models the two address-tree checks
(lines 130-137); `claimRecordAbsent` models the Light system CPI creating
the `ClaimStatus` compressed account (lines 166-169), which fails iff the
derived address already exists.  The checks appear in source order. -/
def handleNewClaim (H : Bytes → Bytes) (distributor : MerkleDistributor)
    (vaultAmount toAmount : Nat) (claimant : Bytes)
    (amountUnlocked amountLocked : Nat) (proof : List Bytes)
    (currTs : Int) (addressTreeIsV2 : Bool) (claimRecordAbsent : Bool) :
    Except ErrorCode NewClaimOk :=
  if distributor.clawedBack then .error .ClaimExpired
  else
    match checkedAdd distributor.numNodesClaimed 1 with
    | none => .error .ArithmeticError
    | some numNodes =>
      if numNodes ≤ distributor.maxNumNodes then
        if verify H proof distributor.root (newClaimLeaf H claimant amountUnlocked amountLocked) then
          if addressTreeIsV2 then
            if amountUnlocked ≤ vaultAmount then
              if claimRecordAbsent then
                match checkedAdd distributor.totalAmountClaimed amountUnlocked with
                | none => .error .ArithmeticError
                | some total =>
                  if total ≤ distributor.maxTotalClaim then
                    .ok { distributor :=
                            { distributor with
                                numNodesClaimed := numNodes
                                totalAmountClaimed := total }
                          vaultAmount := vaultAmount - amountUnlocked
                          toAmount := toAmount + amountUnlocked
                          claimStatus :=
                            { claimant := claimant
                              lockedAmount := amountLocked
                              unlockedAmount := amountUnlocked
                              lockedAmountWithdrawn := 0 }
                          eventClaimant := claimant
                          eventTimestamp := currTs }
                  else .error .ExceededMaxClaim
              else .error .LightSystemError
            else .error .InsufficientUnlockedTokens
          else .error .InvalidAddressTree
        else .error .InvalidProof
      else .error .MaxNodesExceeded

/-- Modelled from the spec: `ClaimStatus::amount_withdrawable`
(state/claim_status.rs) is not among the sources.  Spec section 4.2, the
vested part: 0 before `start_ts`, all of `locked_amount` from `end_ts` on,
and linear interpolation with floor division in between. -/
def vestedAmount (lockedAmount : Nat) (now startTs endTs : Int) : Nat :=
  if now < startTs then 0
  else if endTs ≤ now then lockedAmount
  else lockedAmount * (now - startTs).toNat / (endTs - startTs).toNat

/-- Modelled from the spec: `ClaimStatus::amount_withdrawable`
(state/claim_status.rs) is not among the sources.  Spec section 4.2:
withdrawable = vested - locked_amount_withdrawn, clamped to be nonnegative
(`Nat` subtraction is exactly this clamp). -/
def amountWithdrawable (cs : ClaimStatus) (now startTs endTs : Int) : Nat :=
  vestedAmount cs.lockedAmount now startTs endTs - cs.lockedAmountWithdrawn

/-- The successful result of `handle_claim_locked`: the updated
distributor, vault and destination balances, the updated `ClaimStatus`,
and the emitted `ClaimedEvent` fields. -/
structure ClaimLockedOk where
  distributor : MerkleDistributor
  vaultAmount : Nat
  toAmount : Nat
  claimStatus : ClaimStatus
  eventClaimant : Bytes
  eventAmount : Nat
deriving Repr, DecidableEq

/-- `handle_claim_locked` (claim_locked.rs lines 70-169).  `claimStatus` is
the caller-supplied compressed-account snapshot; `validityOk` models the
Light system CPI at the end of the handler (lines 145-155), which fails iff
the supplied snapshot does not match on-chain compressed state.  `vaultAmount`
is the "from" token account balance; the SPL transfer CPI (line 103) fails
when it is below the transferred amount.  The checks appear in source
order. -/
def handleClaimLocked (distributor : MerkleDistributor)
    (vaultAmount toAmount : Nat) (claimant : Bytes)
    (claimStatus : ClaimStatus) (currTs : Int) (validityOk : Bool) :
    Except ErrorCode ClaimLockedOk :=
  if claimStatus.claimant == claimant then
    if distributor.clawedBack then .error .ClaimExpired
    else
      let amount := amountWithdrawable claimStatus currTs distributor.startTs distributor.endTs
      if 0 < amount then
        if amount ≤ vaultAmount then
          match checkedAdd claimStatus.lockedAmountWithdrawn amount with
          | none => .error .ArithmeticError
          | some withdrawn =>
            if withdrawn ≤ claimStatus.lockedAmount then
              match checkedAdd distributor.totalAmountClaimed amount with
              | none => .error .ArithmeticError
              | some total =>
                if total ≤ distributor.maxTotalClaim then
                  if validityOk then
                    .ok { distributor :=
                            { distributor with totalAmountClaimed := total }
                          vaultAmount := vaultAmount - amount
                          toAmount := toAmount + amount
                          claimStatus :=
                            { claimStatus with lockedAmountWithdrawn := withdrawn }
                          eventClaimant := claimant
                          eventAmount := amount }
                  else .error .LightSystemError
                else .error .ExceededMaxClaim
            else .error .ExceededMaxClaim
        else .error .SplTokenError
      else .error .InsufficientUnlockedTokens
  else .error .ClaimExpired

/-- Association-list lookup keyed by byte strings (claimant identities). -/
def lookupA {α : Type} : List (Bytes × α) → Bytes → Option α
  | [], _ => none
  | (k', v) :: rest, k => if k' == k then some v else lookupA rest k

/-- Association-list update keyed by byte strings: replace the binding if
the key is present, append it otherwise. -/
def setA {α : Type} : List (Bytes × α) → Bytes → α → List (Bytes × α)
  | [], k, v => [(k, v)]
  | (k', v') :: rest, k, v =>
    if k' == k then (k, v) :: rest else (k', v') :: setA rest k v

/-- The on-ledger state touched by the two claim handlers: the distributor
account, the distributor vault balance, the destination token
balances of claimants, and the per-claimant `ClaimStatus` compressed accounts (the host
key-value store keyed by claimant, whose insert-if-absent behaviour the
Light system program provides). -/
structure GlobalState where
  distributor : MerkleDistributor
  vault : Nat
  balances : List (Bytes × Nat)
  records : List (Bytes × ClaimStatus)
deriving Repr, DecidableEq

/-- The destination token balance of a claimant (0 when untracked). -/
def getBalance (s : GlobalState) (claimant : Bytes) : Nat :=
  (lookupA s.balances claimant).getD 0

/-- An instruction issued against a distributor: a NewClaim with its
arguments or a ClaimLocked with its caller-supplied `ClaimStatus`
snapshot.  `currTs` is the clock value at execution. -/
inductive Op where
  | newClaim (claimant : Bytes) (amountUnlocked amountLocked : Nat)
      (proof : List Bytes) (currTs : Int) (addressTreeIsV2 : Bool)
  | claimLocked (claimant : Bytes) (claimStatus : ClaimStatus) (currTs : Int)
deriving Repr

/-- Execute one instruction against the global state: run the embedded
handler with the balances and record-existence facts drawn from the state,
and on success write back the updated accounts. -/
def applyOp (H : Bytes → Bytes) (s : GlobalState) : Op → Except ErrorCode GlobalState
  | .newClaim claimant amountUnlocked amountLocked proof currTs addressTreeIsV2 =>
    match handleNewClaim H s.distributor s.vault (getBalance s claimant) claimant
        amountUnlocked amountLocked proof currTs addressTreeIsV2
        (lookupA s.records claimant).isNone with
    | .error e => .error e
    | .ok r =>
      .ok { distributor := r.distributor
            vault := r.vaultAmount
            balances := setA s.balances claimant r.toAmount
            records := setA s.records claimant r.claimStatus }
  | .claimLocked claimant claimStatus currTs =>
    match handleClaimLocked s.distributor s.vault (getBalance s claimant) claimant
        claimStatus currTs (lookupA s.records claimant == some claimStatus) with
    | .error e => .error e
    | .ok r =>
      .ok { distributor := r.distributor
            vault := r.vaultAmount
            balances := setA s.balances claimant r.toAmount
            records := setA s.records claimant r.claimStatus }

/-- Transactional commit: a failed instruction leaves the ledger state
untouched, a successful one installs the new state. -/
def commit (s : GlobalState) : Except ErrorCode GlobalState → GlobalState
  | .ok s' => s'
  | .error _ => s

/-- The state after executing one instruction transactionally. -/
def step (H : Bytes → Bytes) (s : GlobalState) (op : Op) : GlobalState :=
  commit s (applyOp H s op)

/-- The sequence of states after each instruction of a call sequence. -/
def execTrace (H : Bytes → Bytes) (s : GlobalState) : List Op → List GlobalState
  | [] => []
  | op :: ops => step H s op :: execTrace H (step H s op) ops

/-- The metadata of a persisted airdrop merkle tree read by the CLI
(`AirdropMerkleTree` fields used by `check_distributor_onchain_matches`). -/
structure AirdropMerkleTree where
  merkleRoot : Bytes
  maxTotalClaim : Nat
  maxNumNodes : Nat
deriving Repr, DecidableEq

/-- The `NewDistributorArgs` fields read by
`check_distributor_onchain_matches` (cli.rs). -/
structure NewDistributorArgs where
  startVestingTs : Int
  endVestingTs : Int
  clawbackStartTs : Int
  clawbackReceiverTokenAccount : Bytes
deriving Repr, DecidableEq

/-- `check_distributor_onchain_matches` (cli.rs lines 525-559).
`deserialized` is the result of `MerkleDistributor::try_deserialize` on the
data of the existing account (`none` when deserialization fails, in which case
the source `if let Ok(..)` body is skipped and `Ok(())` is returned). -/
def check_distributor_onchain_matches (deserialized : Option MerkleDistributor)
    (merkleTree : AirdropMerkleTree) (args : NewDistributorArgs)
    (pubkey : Bytes) : Except String Unit :=
  match deserialized with
  | none => .ok ()
  | some distributor =>
    if distributor.root ≠ merkleTree.merkleRoot then .error "root mismatch"
    else if distributor.maxTotalClaim ≠ merkleTree.maxTotalClaim then
      .error "max_total_claim mismatch"
    else if distributor.maxNumNodes ≠ merkleTree.maxNumNodes then
      .error "max_num_nodes mismatch"
    else if distributor.startTs ≠ args.startVestingTs then .error "start_ts mismatch"
    else if distributor.endTs ≠ args.endVestingTs then .error "end_ts mismatch"
    else if distributor.clawbackStartTs ≠ args.clawbackStartTs then
      .error "clawback_start_ts mismatch"
    else if distributor.clawbackReceiver ≠ args.clawbackReceiverTokenAccount then
      .error "clawback_receiver mismatch"
    else if distributor.admin ≠ pubkey then .error "admin mismatch"
    else .ok ()

/-- The two global distributor bounds of the spec. -/
def distInv (d : MerkleDistributor) : Prop :=
  d.totalAmountClaimed ≤ d.maxTotalClaim ∧ d.numNodesClaimed ≤ d.maxNumNodes

instance (d : MerkleDistributor) : Decidable (distInv d) := by
  unfold distInv; infer_instance

/-- A hash function, a start state and operations used to witness the
theorems on concrete inputs. -/
def hZero : Bytes → Bytes := fun _ => []

def distributor0 : MerkleDistributor :=
  { root := [], mint := [1], admin := [2], clawbackReceiver := [3]
    startTs := 100, endTs := 200, clawbackStartTs := 300
    totalAmountClaimed := 0, maxTotalClaim := 10, numNodesClaimed := 0
    maxNumNodes := 1, clawedBack := false }

def state0 : GlobalState :=
  { distributor := distributor0, vault := 10, balances := [], records := [] }

def opNew0 : Op := Op.newClaim [7] 4 6 [] 150 true

def distributorClawed : MerkleDistributor := { distributor0 with clawedBack := true }

def stateClawed : GlobalState := { state0 with distributor := distributorClawed }

def distributorBadRoot : MerkleDistributor := { distributor0 with root := [9] }

def stateBadRoot : GlobalState := { state0 with distributor := distributorBadRoot }

def stateAfterNew : GlobalState := step hZero state0 opNew0

/-- The per-record vesting-accounting invariant of the spec:
`locked_amount_withdrawn ≤ locked_amount` for every stored claim record
(the lower bound 0 is inherent in the `Nat` carrier). -/
def recordsInv (s : GlobalState) : Prop :=
  ∀ p ∈ s.records, p.2.lockedAmountWithdrawn ≤ p.2.lockedAmount

instance (s : GlobalState) : Decidable (recordsInv s) := by
  unfold recordsInv; infer_instance

/-- C6: every operation preserves `0 ≤ locked_amount_withdrawn ≤
locked_amount` over all stored claim records: NewClaim creates its record
with `locked_amount_withdrawn = 0`, and a successful ClaimLocked leaves
the updated record with `locked_amount_withdrawn ≤ locked_amount` (the
handler rejects with `ExceededMaxClaim` otherwise, and with
`ArithmeticError` when the addition overflows). -/

def claimStatus6 : ClaimStatus :=
  { claimant := [7], lockedAmount := 6, unlockedAmount := 4
    lockedAmountWithdrawn := 0 }

def stateLocked : GlobalState :=
  { distributor := distributor0, vault := 6, balances := [([7], 4)]
    records := [([7], claimStatus6)] }

def opLocked : Op := Op.claimLocked [7] claimStatus6 250

/-- The leaf hash as the spec words it (section 4.1): the hash of the
single byte 0x00 followed by the hash of the claimant id bytes, the
8-byte little-endian unlocked amount and the 8-byte little-endian locked
amount. -/
def specLeafHash (H : Bytes → Bytes) (claimantIdBytes : Bytes)
    (amountUnlocked amountLocked : Nat) : Bytes :=
  H (0 :: H (claimantIdBytes ++ toLeBytes64 amountUnlocked ++ toLeBytes64 amountLocked))

def claimStatus7 : ClaimStatus :=
  { claimant := [], lockedAmount := 5, unlockedAmount := 0
    lockedAmountWithdrawn := 0 }

/-! ### Helper lemmas -/

theorem checkedAdd_eq_some {a b c : Nat} (h : checkedAdd a b = some c) :
    c = a + b ∧ a + b < U64_LIMIT := by
  unfold checkedAdd at h
  split at h
  · exact ⟨(Option.some.injEq _ _).mp h.symm, by assumption⟩
  · exact Option.noConfusion h

theorem lookupA_setA_self {α : Type} (l : List (Bytes × α)) (k : Bytes) (v : α) :
    lookupA (setA l k v) k = some v := by
  induction l with
  | nil => simp [setA, lookupA]
  | cons p rest ih =>
    obtain ⟨k', v'⟩ := p
    by_cases hk : k' == k
    · simp [setA, hk, lookupA]
    · simp [setA, hk, lookupA, ih]

theorem mem_setA {α : Type} {l : List (Bytes × α)} {k : Bytes} {v : α}
    {p : Bytes × α} (h : p ∈ setA l k v) : p = (k, v) ∨ p ∈ l := by
  induction l with
  | nil => simpa [setA] using h
  | cons q rest ih =>
    by_cases hk : q.1 == k
    · unfold setA at h
      rw [(by exact rfl : (q.1, q.2) = q)] at *
      simp only [hk, if_pos] at h
      rcases List.mem_cons.mp h with h1 | h2
      · exact Or.inl h1
      · exact Or.inr (List.mem_cons_of_mem _ h2)
    · unfold setA at h
      rw [(by exact rfl : (q.1, q.2) = q)] at *
      simp only [hk, if_neg, Bool.false_eq_true, not_false_iff] at h
      rcases List.mem_cons.mp h with h1 | h2
      · exact Or.inr (h1 ▸ List.mem_cons_self _ _)
      · rcases ih h2 with h3 | h4
        · exact Or.inl h3
        · exact Or.inr (List.mem_cons_of_mem _ h4)

/-- Everything a successful `handleNewClaim` guarantees: the guards it
passed and the exact contents of the result. -/
theorem handleNewClaim_ok_spec {H : Bytes → Bytes} {d : MerkleDistributor}
    {va ta : Nat} {c : Bytes} {u l : Nat} {proof : List Bytes} {ts : Int}
    {atOk absent : Bool} {r : NewClaimOk}
    (h : handleNewClaim H d va ta c u l proof ts atOk absent = .ok r) :
    d.clawedBack = false ∧
    d.numNodesClaimed + 1 ≤ d.maxNumNodes ∧
    verify H proof d.root (newClaimLeaf H c u l) = true ∧
    atOk = true ∧ u ≤ va ∧ absent = true ∧
    d.totalAmountClaimed + u ≤ d.maxTotalClaim ∧
    r = { distributor :=
            { d with numNodesClaimed := d.numNodesClaimed + 1
                     totalAmountClaimed := d.totalAmountClaimed + u }
          vaultAmount := va - u
          toAmount := ta + u
          claimStatus :=
            { claimant := c, lockedAmount := l, unlockedAmount := u
              lockedAmountWithdrawn := 0 }
          eventClaimant := c
          eventTimestamp := ts } := by
  unfold handleNewClaim at h
  split at h
  · exact Except.noConfusion h
  · rename_i hcb
    split at h
    · exact Except.noConfusion h
    · rename_i numNodes hnum
      obtain ⟨hn1, _⟩ := checkedAdd_eq_some hnum
      subst hn1
      split at h
      case isFalse => exact Except.noConfusion h
      case isTrue hNodes =>
        split at h
        case isFalse => exact Except.noConfusion h
        case isTrue hVerify =>
          split at h
          case isFalse => exact Except.noConfusion h
          case isTrue hAt =>
            split at h
            case isFalse => exact Except.noConfusion h
            case isTrue hVault =>
              split at h
              case isFalse => exact Except.noConfusion h
              case isTrue hAbsent =>
                split at h
                · exact Except.noConfusion h
                · rename_i total htot
                  obtain ⟨ht1, _⟩ := checkedAdd_eq_some htot
                  subst ht1
                  split at h
                  case isFalse => exact Except.noConfusion h
                  case isTrue hTotal =>
                    refine ⟨by simpa using hcb, hNodes, hVerify, hAt, hVault,
                      hAbsent, hTotal, ?_⟩
                    exact ((Except.ok.injEq _ _).mp h).symm

/-- Everything a successful `handleClaimLocked` guarantees, with
`amount` the withdrawable amount at the clock reading of the call. -/
theorem handleClaimLocked_ok_spec {d : MerkleDistributor} {va ta : Nat}
    {c : Bytes} {cs : ClaimStatus} {ts : Int} {vOk : Bool} {r : ClaimLockedOk}
    (h : handleClaimLocked d va ta c cs ts vOk = .ok r) :
    cs.claimant = c ∧ d.clawedBack = false ∧
    0 < amountWithdrawable cs ts d.startTs d.endTs ∧
    amountWithdrawable cs ts d.startTs d.endTs ≤ va ∧
    cs.lockedAmountWithdrawn + amountWithdrawable cs ts d.startTs d.endTs ≤
      cs.lockedAmount ∧
    d.totalAmountClaimed + amountWithdrawable cs ts d.startTs d.endTs ≤
      d.maxTotalClaim ∧ vOk = true ∧
    r = { distributor :=
            { d with totalAmountClaimed :=
                d.totalAmountClaimed + amountWithdrawable cs ts d.startTs d.endTs }
          vaultAmount := va - amountWithdrawable cs ts d.startTs d.endTs
          toAmount := ta + amountWithdrawable cs ts d.startTs d.endTs
          claimStatus :=
            { cs with lockedAmountWithdrawn :=
                cs.lockedAmountWithdrawn + amountWithdrawable cs ts d.startTs d.endTs }
          eventClaimant := c
          eventAmount := amountWithdrawable cs ts d.startTs d.endTs } := by
  unfold handleClaimLocked at h
  simp only [] at h
  split at h
  case isFalse => exact Except.noConfusion h
  case isTrue hcl =>
    split at h
    case isTrue => exact Except.noConfusion h
    case isFalse hcb =>
      split at h
      case isFalse => exact Except.noConfusion h
      case isTrue hAmt =>
        split at h
        case isFalse => exact Except.noConfusion h
        case isTrue hVault =>
          split at h
          · exact Except.noConfusion h
          · rename_i withdrawn hw
            obtain ⟨hw1, _⟩ := checkedAdd_eq_some hw
            subst hw1
            split at h
            case isFalse => exact Except.noConfusion h
            case isTrue hLock =>
              split at h
              · exact Except.noConfusion h
              · rename_i total htot
                obtain ⟨ht1, _⟩ := checkedAdd_eq_some htot
                subst ht1
                split at h
                case isFalse => exact Except.noConfusion h
                case isTrue hTotal =>
                  split at h
                  case isFalse => exact Except.noConfusion h
                  case isTrue hVal =>
                    refine ⟨eq_of_beq hcl, by simpa using hcb, hAmt, hVault,
                      hLock, hTotal, hVal, ?_⟩
                    exact ((Except.ok.injEq _ _).mp h).symm

theorem applyOp_ok_distInv {H : Bytes → Bytes} {s : GlobalState} {op : Op}
    {s' : GlobalState} (h : applyOp H s op = .ok s')
    (hinv : distInv s.distributor) : distInv s'.distributor := by
  cases op with
  | newClaim claimant u l proof ts atOk =>
    simp only [applyOp] at h
    split at h
    · exact Except.noConfusion h
    · rename_i r hr
      obtain ⟨_, hNodes, _, _, _, _, hTotal, hres⟩ := handleNewClaim_ok_spec hr
      obtain ⟨hs⟩ := (Except.ok.injEq _ _).mp h
      subst hres
      exact ⟨hTotal, hNodes⟩
  | claimLocked claimant cs ts =>
    simp only [applyOp] at h
    split at h
    · exact Except.noConfusion h
    · rename_i r hr
      obtain ⟨_, _, _, _, _, hTotal, _, hres⟩ := handleClaimLocked_ok_spec hr
      obtain ⟨hs⟩ := (Except.ok.injEq _ _).mp h
      subst hres
      exact ⟨hTotal, hinv.2⟩

theorem step_distInv (H : Bytes → Bytes) (s : GlobalState) (op : Op)
    (hinv : distInv s.distributor) : distInv (step H s op).distributor := by
  unfold step commit
  split
  · rename_i s' hs'
    exact applyOp_ok_distInv hs' hinv
  · exact hinv

/-- C1: for every sequence of NewClaim and ClaimLocked operations executed
transactionally from a state whose distributor satisfies the bounds (in
particular the freshly initialized one with zeroed counters),
`total_amount_claimed ≤ max_total_claim` and
`num_nodes_claimed ≤ max_num_nodes` hold after every operation: each
handler that increases a counter rejects (MaxNodesExceeded or
ExceededMaxClaim) any call whose completion would break a bound, and a
rejected call commits nothing. -/
theorem counters_bounded_along_every_trace (H : Bytes → Bytes)
    (s : GlobalState) (ops : List Op) (hinv : distInv s.distributor) :
    ∀ s' ∈ execTrace H s ops, distInv s'.distributor := by
  induction ops generalizing s with
  | nil => intro s' hs'; simp [execTrace] at hs'
  | cons op rest ih =>
    intro s' hs'
    unfold execTrace at hs'
    rcases List.mem_cons.mp hs' with h1 | h2
    · exact h1 ▸ step_distInv H s op hinv
    · exact ih (step H s op) (step_distInv H s op hinv) s' h2

theorem counters_bounded_along_every_trace_witness :
    distInv state0.distributor ∧
      ∀ s' ∈ execTrace hZero state0 [opNew0, opNew0], distInv s'.distributor :=
  ⟨by decide, counters_bounded_along_every_trace hZero state0 [opNew0, opNew0]
    (by decide)⟩

/-- C2: once the distributor is clawed back, every NewClaim and every
ClaimLocked instruction fails with `ClaimExpired`, and the transactional
commit leaves the whole state — counters, claim records and token
balances — exactly as it was. -/
theorem clawed_back_rejects_everything (H : Bytes → Bytes) (s : GlobalState)
    (op : Op) (hcb : s.distributor.clawedBack = true) :
    applyOp H s op = .error .ClaimExpired ∧ step H s op = s := by
  have happ : applyOp H s op = .error .ClaimExpired := by
    cases op with
    | newClaim claimant u l proof ts atOk =>
      simp [applyOp, handleNewClaim, hcb]
    | claimLocked claimant cs ts =>
      simp [applyOp, handleClaimLocked, hcb]
  exact ⟨happ, by unfold step; rw [happ]; rfl⟩

theorem clawed_back_rejects_everything_witness :
    stateClawed.distributor.clawedBack = true ∧
      (applyOp hZero stateClawed opNew0 = .error .ClaimExpired ∧
        step hZero stateClawed opNew0 = stateClawed) :=
  ⟨rfl, clawed_back_rejects_everything hZero stateClawed opNew0 rfl⟩

/-- C3: a NewClaim whose proof does not fold from the recomputed leaf to
the stored root — in a call that passes the earlier guards, i.e. the
distributor is not clawed back and the node-counter increment succeeds and
stays within `max_num_nodes` — fails with `InvalidProof`, and the
transactional commit keeps the pre-call state: the counter increment is
not committed, `total_amount_claimed` keeps its value, no `ClaimRecord` is
created and no tokens move. -/
theorem invalid_proof_rejects (H : Bytes → Bytes) (s : GlobalState)
    (claimant : Bytes) (u l : Nat) (proof : List Bytes) (ts : Int) (atOk : Bool)
    (hcb : s.distributor.clawedBack = false)
    (hof : s.distributor.numNodesClaimed + 1 < U64_LIMIT)
    (hmax : s.distributor.numNodesClaimed + 1 ≤ s.distributor.maxNumNodes)
    (hv : verify H proof s.distributor.root (newClaimLeaf H claimant u l) = false) :
    applyOp H s (Op.newClaim claimant u l proof ts atOk) = .error .InvalidProof ∧
      step H s (Op.newClaim claimant u l proof ts atOk) = s := by
  have happ : applyOp H s (Op.newClaim claimant u l proof ts atOk) =
      .error .InvalidProof := by
    simp [applyOp, handleNewClaim, hcb, checkedAdd, hof, hmax, hv]
  exact ⟨happ, by unfold step; rw [happ]; rfl⟩

theorem invalid_proof_rejects_witness :
    (stateBadRoot.distributor.clawedBack = false ∧
      stateBadRoot.distributor.numNodesClaimed + 1 < U64_LIMIT ∧
      stateBadRoot.distributor.numNodesClaimed + 1 ≤
        stateBadRoot.distributor.maxNumNodes ∧
      verify hZero [] stateBadRoot.distributor.root (newClaimLeaf hZero [7] 4 6) =
        false) ∧
    applyOp hZero stateBadRoot (Op.newClaim [7] 4 6 [] 150 true) =
        .error .InvalidProof ∧
      step hZero stateBadRoot (Op.newClaim [7] 4 6 [] 150 true) = stateBadRoot :=
  ⟨⟨rfl, by decide, by decide, rfl⟩,
    invalid_proof_rejects hZero stateBadRoot [7] 4 6 [] 150 true rfl (by decide)
      (by decide) rfl⟩

/-- C4: a successful NewClaim adds exactly 1 to `num_nodes_claimed`, adds
exactly `amount_unlocked` to `total_amount_claimed`, moves exactly
`amount_unlocked` tokens from the vault to the claimant, and creates for the
claimant a `ClaimStatus` — previously absent — with
`unlocked_amount = amount_unlocked`, `locked_amount = amount_locked` and
`locked_amount_withdrawn = 0`; the distributor bounds and clawback flag
are untouched. -/
theorem new_claim_success_effects (H : Bytes → Bytes) (s : GlobalState)
    (claimant : Bytes) (u l : Nat) (proof : List Bytes) (ts : Int) (atOk : Bool)
    (s' : GlobalState)
    (h : applyOp H s (Op.newClaim claimant u l proof ts atOk) = .ok s') :
    lookupA s.records claimant = none ∧
    s'.distributor.numNodesClaimed = s.distributor.numNodesClaimed + 1 ∧
    s'.distributor.totalAmountClaimed = s.distributor.totalAmountClaimed + u ∧
    s'.vault + u = s.vault ∧
    getBalance s' claimant = getBalance s claimant + u ∧
    lookupA s'.records claimant =
      some { claimant := claimant, lockedAmount := l, unlockedAmount := u
             lockedAmountWithdrawn := 0 } ∧
    s'.distributor.maxTotalClaim = s.distributor.maxTotalClaim ∧
    s'.distributor.maxNumNodes = s.distributor.maxNumNodes ∧
    s'.distributor.clawedBack = s.distributor.clawedBack := by
  simp only [applyOp] at h
  split at h
  · exact Except.noConfusion h
  · rename_i r hr
    obtain ⟨hcb, hNodes, hVer, hAt, hVault, hAbsent, hTotal, hres⟩ :=
      handleNewClaim_ok_spec hr
    obtain ⟨hs⟩ := (Except.ok.injEq _ _).mp h
    subst hres
    refine ⟨Option.isNone_iff_eq_none.mp hAbsent, rfl, rfl,
      Nat.sub_add_cancel hVault, ?_, ?_, rfl, rfl, rfl⟩
    · simp [getBalance, lookupA_setA_self]
    · exact lookupA_setA_self _ _ _

theorem new_claim_success_effects_witness :
    applyOp hZero state0 (Op.newClaim [7] 4 6 [] 150 true) = .ok stateAfterNew ∧
    (lookupA state0.records [7] = none ∧
      stateAfterNew.distributor.numNodesClaimed =
        state0.distributor.numNodesClaimed + 1 ∧
      stateAfterNew.distributor.totalAmountClaimed =
        state0.distributor.totalAmountClaimed + 4 ∧
      stateAfterNew.vault + 4 = state0.vault ∧
      getBalance stateAfterNew [7] = getBalance state0 [7] + 4 ∧
      lookupA stateAfterNew.records [7] =
        some { claimant := [7], lockedAmount := 6, unlockedAmount := 4
               lockedAmountWithdrawn := 0 } ∧
      stateAfterNew.distributor.maxTotalClaim = state0.distributor.maxTotalClaim ∧
      stateAfterNew.distributor.maxNumNodes = state0.distributor.maxNumNodes ∧
      stateAfterNew.distributor.clawedBack = state0.distributor.clawedBack) :=
  ⟨rfl, new_claim_success_effects hZero state0 [7] 4 6 [] 150 true stateAfterNew rfl⟩

theorem claim_record_invariant_preserved (H : Bytes → Bytes) (s : GlobalState)
    (op : Op) (s' : GlobalState) (h : applyOp H s op = .ok s')
    (hinv : recordsInv s) : recordsInv s' := by
  cases op with
  | newClaim claimant u l proof ts atOk =>
    simp only [applyOp] at h
    split at h
    · exact Except.noConfusion h
    · rename_i r hr
      obtain ⟨_, _, _, _, _, _, _, hres⟩ := handleNewClaim_ok_spec hr
      obtain ⟨hs⟩ := (Except.ok.injEq _ _).mp h
      subst hres
      intro p hp
      rcases mem_setA hp with h1 | h2
      · subst h1; exact Nat.zero_le _
      · exact hinv p h2
  | claimLocked claimant cs ts =>
    simp only [applyOp] at h
    split at h
    · exact Except.noConfusion h
    · rename_i r hr
      obtain ⟨_, _, _, _, hLock, _, _, hres⟩ := handleClaimLocked_ok_spec hr
      obtain ⟨hs⟩ := (Except.ok.injEq _ _).mp h
      subst hres
      intro p hp
      rcases mem_setA hp with h1 | h2
      · subst h1; exact hLock
      · exact hinv p h2

theorem claim_record_invariant_preserved_witness :
    (applyOp hZero stateLocked opLocked = .ok (step hZero stateLocked opLocked) ∧
      recordsInv stateLocked) ∧
    recordsInv (step hZero stateLocked opLocked) :=
  ⟨⟨rfl, by decide⟩,
    claim_record_invariant_preserved hZero stateLocked opLocked
      (step hZero stateLocked opLocked) rfl (by decide)⟩

/-- C5: for every claimant identity and pair of u64 amounts, the leaf hash
`handle_new_claim` verifies the proof against equals
Hash(0x00 concat Hash(claimant_id_bytes concat unlocked_LE64 concat
locked_LE64)), with the one-byte 0x00 domain-separation applied exactly
once. -/
theorem leaf_hash_matches_spec (H : Bytes → Bytes) (claimant : Bytes)
    (amountUnlocked amountLocked : Nat) :
    newClaimLeaf H claimant amountUnlocked amountLocked =
      specLeafHash H claimant amountUnlocked amountLocked := rfl

theorem vestedAmount_le (L : Nat) (now startTs endTs : Int) :
    vestedAmount L now startTs endTs ≤ L := by
  unfold vestedAmount
  split
  · exact Nat.zero_le _
  · split
    · exact le_refl _
    · rename_i h1 h2
      by_cases hb : (endTs - startTs).toNat = 0
      · rw [hb]; simp
      · have hab : (now - startTs).toNat ≤ (endTs - startTs).toNat :=
          Int.toNat_le_toNat (by omega)
        calc L * (now - startTs).toNat / (endTs - startTs).toNat
            ≤ L * (endTs - startTs).toNat / (endTs - startTs).toNat :=
              Nat.div_le_div_right (Nat.mul_le_mul_left _ hab)
          _ = L := Nat.mul_div_cancel _ (Nat.pos_of_ne_zero hb)

theorem vestedAmount_mono (L : Nat) (startTs endTs : Int) {now1 now2 : Int}
    (h12 : now1 ≤ now2) :
    vestedAmount L now1 startTs endTs ≤ vestedAmount L now2 startTs endTs := by
  by_cases hs1 : now1 < startTs
  · simp [vestedAmount, hs1]
  · have hs2 : ¬ now2 < startTs := by omega
    by_cases he1 : endTs ≤ now1
    · have he2 : endTs ≤ now2 := by omega
      simp [vestedAmount, hs1, hs2, he1, he2]
    · by_cases he2 : endTs ≤ now2
      · calc vestedAmount L now1 startTs endTs ≤ L := vestedAmount_le L now1 startTs endTs
          _ = vestedAmount L now2 startTs endTs := by simp [vestedAmount, hs2, he2]
      · simp only [vestedAmount, hs1, hs2, he1, he2, if_false]
        exact Nat.div_le_div_right
          (Nat.mul_le_mul_left _ (Int.toNat_le_toNat (by omega)))

/-- C7 counterexample: with `start_ts = 10`, `end_ts = 0`,
`locked_amount = 5`, `locked_amount_withdrawn = 0` and `now = 5`, the clock
satisfies `now ≥ end_ts` but the withdrawable amount is 0, not
`locked_amount - locked_amount_withdrawn = 5`: the before-start branch wins
whenever `end_ts ≤ now < start_ts`. -/
theorem amountWithdrawable_at_end_counterexample :
    (0 : Int) ≤ 5 ∧
      amountWithdrawable claimStatus7 5 10 0 ≠
        claimStatus7.lockedAmount - claimStatus7.lockedAmountWithdrawn := by
  decide

/-- C7 (amended): for fixed inputs other than `now`, `amount_withdrawable`
is non-decreasing as `now` increases and never exceeds
`locked_amount - locked_amount_withdrawn`; and provided
`start_ts ≤ end_ts`, it equals exactly
`locked_amount - locked_amount_withdrawn` for every `now ≥ end_ts` (when
`end_ts < start_ts` and `now < start_ts`, the before-start branch makes it
0 instead). -/
theorem amountWithdrawable_props (cs : ClaimStatus) (startTs endTs now now1 now2 : Int)
    (h12 : now1 ≤ now2) :
    amountWithdrawable cs now1 startTs endTs ≤
      amountWithdrawable cs now2 startTs endTs ∧
    amountWithdrawable cs now startTs endTs ≤
      cs.lockedAmount - cs.lockedAmountWithdrawn ∧
    (startTs ≤ endTs → endTs ≤ now →
      amountWithdrawable cs now startTs endTs =
        cs.lockedAmount - cs.lockedAmountWithdrawn) := by
  refine ⟨Nat.sub_le_sub_right (vestedAmount_mono _ _ _ h12) _,
    Nat.sub_le_sub_right (vestedAmount_le _ _ _ _) _, ?_⟩
  intro hse hend
  have hns : ¬ now < startTs := by omega
  simp [amountWithdrawable, vestedAmount, hns, hend]

theorem amountWithdrawable_props_witness :
    (3 : Int) ≤ 7 ∧
      (amountWithdrawable claimStatus7 3 0 10 ≤ amountWithdrawable claimStatus7 7 0 10 ∧
       amountWithdrawable claimStatus7 20 0 10 ≤
         claimStatus7.lockedAmount - claimStatus7.lockedAmountWithdrawn ∧
       ((0 : Int) ≤ 10 → (10 : Int) ≤ 20 →
         amountWithdrawable claimStatus7 20 0 10 =
           claimStatus7.lockedAmount - claimStatus7.lockedAmountWithdrawn)) :=
  ⟨by decide, amountWithdrawable_props claimStatus7 0 10 20 3 7 (by decide)⟩

/-- C8: for an existing account that deserializes as a MerkleDistributor,
the CLI pre-flight check returns `Ok` exactly when all eight compared
fields — root, max_total_claim, max_num_nodes, start_ts, end_ts,
clawback_start_ts, clawback_receiver, admin — match the supplied
parameters; any single mismatch yields a descriptive error. -/
theorem check_distributor_matches_iff (d : MerkleDistributor)
    (t : AirdropMerkleTree) (args : NewDistributorArgs) (pubkey : Bytes) :
    check_distributor_onchain_matches (some d) t args pubkey = .ok () ↔
      (d.root = t.merkleRoot ∧ d.maxTotalClaim = t.maxTotalClaim ∧
       d.maxNumNodes = t.maxNumNodes ∧ d.startTs = args.startVestingTs ∧
       d.endTs = args.endVestingTs ∧ d.clawbackStartTs = args.clawbackStartTs ∧
       d.clawbackReceiver = args.clawbackReceiverTokenAccount ∧
       d.admin = pubkey) := by
  simp only [check_distributor_onchain_matches]
  split_ifs with h1 h2 h3 h4 h5 h6 h7 h8 <;> simp_all

/-- C9: for an existing account whose data does not deserialize as a
MerkleDistributor, the CLI pre-flight check silently returns `Ok(())`:
every field comparison sits inside the `if let Ok(distributor)` branch. -/
theorem check_distributor_skips_undeserializable (t : AirdropMerkleTree)
    (args : NewDistributorArgs) (pubkey : Bytes) :
    check_distributor_onchain_matches none t args pubkey = .ok () := rfl

/-- C10: with the distributor not clawed back, the outcome of
`handle_new_claim` — success or the specific error, and every state
effect — is the same for any two clock readings: the timestamp read at
entry only lands in the emitted `NewClaimEvent`. -/
theorem new_claim_time_independent (H : Bytes → Bytes) (d : MerkleDistributor)
    (va ta : Nat) (c : Bytes) (u l : Nat) (proof : List Bytes)
    (atOk absent : Bool) (ts1 ts2 : Int) (hcb : d.clawedBack = false) :
    handleNewClaim H d va ta c u l proof ts1 atOk absent =
      Except.map (fun r => { r with eventTimestamp := ts1 })
        (handleNewClaim H d va ta c u l proof ts2 atOk absent) ∧
    ∀ r, handleNewClaim H d va ta c u l proof ts1 atOk absent = .ok r →
      r.eventTimestamp = ts1 := by
  constructor
  · unfold handleNewClaim
    cases checkedAdd d.numNodesClaimed 1 with
    | none => simp [hcb, Except.map]
    | some numNodes =>
      cases checkedAdd d.totalAmountClaimed u with
      | none => simp only [hcb, Bool.false_eq_true, if_false]; split_ifs <;> rfl
      | some total => simp only [hcb, Bool.false_eq_true, if_false]; split_ifs <;> rfl
  · intro r h
    obtain ⟨_, _, _, _, _, _, _, hres⟩ := handleNewClaim_ok_spec h
    subst hres
    rfl

theorem new_claim_time_independent_witness :
    distributor0.clawedBack = false ∧
      (handleNewClaim hZero distributor0 10 0 [7] 4 6 [] 150 true true =
        Except.map (fun r => { r with eventTimestamp := 150 })
          (handleNewClaim hZero distributor0 10 0 [7] 4 6 [] 999 true true) ∧
       ∀ r, handleNewClaim hZero distributor0 10 0 [7] 4 6 [] 150 true true = .ok r →
         r.eventTimestamp = 150) :=
  ⟨rfl, new_claim_time_independent hZero distributor0 10 0 [7] 4 6 [] true true
    150 999 rfl⟩

end Distributor
